import Mathlib

/-!
Verification of `gitlab-recurring-issues` (`main.go`): a shallow embedding of
the program's data model and control flow, followed by theorems settling the
specification's claims.  Timestamps are modelled as `Int` seconds since the
Unix epoch.  External library calls (file reads, front-matter unmarshalling,
cron parsing, duration parsing, issue submission) are passed in as explicit
function parameters, so the embedded code is pure and executable.
-/

namespace GitlabRecurringIssues

/-- Instants of `time.Time`, modelled as seconds since the Unix epoch. -/
abbrev Time := Int

/-- `time.Unix(0, 0)`, the fixed epoch fallback. -/
def unixEpoch : Time := 0

/-- The `metadata` struct of `main.go`: front-matter fields plus the computed
`NextTime`.  Zero values mirror Go's zero value for each field. -/
structure Metadata where
  title : String := ""
  description : String := ""
  confidential : Bool := false
  assignees : List String := []
  labels : List String := []
  dueIn : String := ""
  crontab : String := ""
  nextTime : Time := 0
deriving Repr, DecidableEq

/-! ## Configuration loader (`main`, env-variable checks) -/

/-- The five environment settings read at startup. -/
structure Env where
  gitlabAPIToken : String
  ciAPIV4URL : String
  ciProjectID : String
  ciProjectDir : String
  ciJobName : String
deriving Repr, DecidableEq

/-- The startup presence checks of `main` in `main.go`, exactly as written:
the check guarding each `log.Fatal` call is transcribed verbatim, including
the fact that the conditions for `CI_PROJECT_ID`, `CI_PROJECT_DIR` and
`CI_JOB_NAME` test `gitlabAPIToken` rather than the variable just read.
Returns `some name` when the process dies with a fatal message naming the
setting `name`, and `none` when execution proceeds past all five checks. -/
def checkEnv (e : Env) : Option String :=
  if e.gitlabAPIToken = "" then some "GITLAB_API_TOKEN"
  else if e.ciAPIV4URL = "" then some "CI_API_V4_URL"
  else if e.gitlabAPIToken = "" then some "CI_PROJECT_ID"
  else if e.gitlabAPIToken = "" then some "CI_PROJECT_DIR"
  else if e.gitlabAPIToken = "" then some "CI_JOB_NAME"
  else none

/-! ## Last-run resolver (`getLastRunTime`) -/

/-- A CI job as returned by the pipeline-jobs listing; `finishedAt` models the
`*time.Time` pointer field `FinishedAt` (`none` is a nil pointer), and
`status` models the job's own status string, which `getLastRunTime` never
inspects. -/
structure Job where
  name : String
  status : String
  finishedAt : Option Time
deriving Repr, DecidableEq

/-- A pipeline from the project-pipelines listing, paired with the jobs that
the jobs-listing call returns for it.  The surrounding query asks for
finished, successful pipelines ordered by `updated_at`; the list below is in
the order the API returned. -/
structure PipelineInfo where
  id : Int
  jobs : List Job
deriving Repr, DecidableEq

/-- Result of running a Go function that may return an error or panic. -/
inductive GoResult (α : Type) where
  | ok (a : α)
  | error (e : String)
  | panic (msg : String)
deriving Repr, DecidableEq

/-- The message of a nil-pointer dereference panic. -/
def nilDerefMsg : String := "runtime error: invalid memory address or nil pointer dereference"

/-- The double loop of `getLastRunTime` in `main.go`: walk the returned
pipelines in order; within each pipeline walk its jobs in order; on the first
job whose `Name` equals the configured job name, return `*job.FinishedAt`
(a panic when the pointer is nil); if no pipeline contains a matching job,
return `time.Unix(0, 0)` with no error. -/
def getLastRunTime (ciJobName : String) : List PipelineInfo → GoResult Time
  | [] => .ok unixEpoch
  | p :: rest =>
    match p.jobs.find? (fun j => j.name = ciJobName) with
    | some j =>
      match j.finishedAt with
      | some t => .ok t
      | none => .panic nilDerefMsg
    | none => getLastRunTime ciJobName rest

/-- The first job matching the configured name, scanning pipelines in list
order and jobs within each pipeline in list order (specification-side helper
used to state what `getLastRunTime` returns). -/
def firstMatchingJob (ciJobName : String) : List PipelineInfo → Option Job
  | [] => none
  | p :: rest =>
    match p.jobs.find? (fun j => j.name = ciJobName) with
    | some j => some j
    | none => firstMatchingJob ciJobName rest

/-! ## Issue creation (`createIssue`) -/

/-- The fields of `gitlab.CreateIssueOptions` that `createIssue` may touch.
Every field is a pointer in the Go API; `none` models a nil (unset) field. -/
structure CreateIssueOptions where
  title : Option String := none
  description : Option String := none
  confidential : Option Bool := none
  createdAt : Option Time := none
  dueDate : Option Time := none
  assigneeIDs : Option (List Int) := none
  labels : Option (List String) := none
deriving Repr, DecidableEq

/-- The request construction inside `createIssue` in `main.go`: title,
description, confidentiality and `CreatedAt := data.NextTime` are always set;
when `data.DueIn` is non-empty it is parsed as a duration (an error aborts)
and `DueDate := data.NextTime.Add(duration)`.  `parseDuration` stands for
`time.ParseDuration`, returning a duration in seconds. -/
def createIssueOptions (parseDuration : String → Except String Int)
    (data : Metadata) : Except String CreateIssueOptions :=
  let options : CreateIssueOptions :=
    { title := some data.title
      description := some data.description
      confidential := some data.confidential
      createdAt := some data.nextTime }
  if data.dueIn ≠ "" then
    match parseDuration data.dueIn with
    | .error e => .error e
    | .ok duration => .ok { options with dueDate := some (data.nextTime + duration) }
  else
    .ok options

/-! ## Path extension (`filepath.Ext`) -/

/-- The final path element: the suffix after the last `/`. -/
def finalElem (cs : List Char) : List Char :=
  (cs.reverse.takeWhile (fun c => c ≠ '/')).reverse

/-- `filepath.Ext`: the suffix of the final path element beginning at its
last dot, or `""` when the final element has no dot. -/
def filepathExt (p : String) : String :=
  let b := finalElem p.data
  let afterDot := b.reverse.takeWhile (fun c => c ≠ '.')
  if afterDot.length = b.length then ""
  else String.mk ('.' :: afterDot.reverse)

/-! ## Recurrence evaluation for the `@daily` alias -/

/-- Modelled from the spec: the cron library (`github.com/gorhill/cronexpr`,
not under `src/`) maps the alias `@daily` to the field pattern `0 0 * * *`
and computes the first occurrence of the pattern strictly after the reference
time, i.e. the next midnight.  With times in seconds since the epoch and no
zone offsets, the next midnight strictly after `t` is the next multiple of
86400 above `t`. -/
def nextDaily (t : Time) : Time := (t / 86400 + 1) * 86400

/-! ## Front-matter parsing (`parseMetadata`) -/

/-- Whitespace recognized when trimming scalar values. -/
def isSpaceChar (c : Char) : Bool := c = ' ' || c = '\t' || c = '\r'

/-- Drop leading and trailing whitespace. -/
def trimChars (cs : List Char) : List Char :=
  ((cs.dropWhile isSpaceChar).reverse.dropWhile isSpaceChar).reverse

/-- Drop leading and trailing whitespace of a string. -/
def trimStr (s : String) : String := String.mk (trimChars s.data)

/-- Split a character list on a separator character; the separator is not
kept, and `n` separators yield `n + 1` groups. -/
def splitOnChar (sep : Char) : List Char → List (List Char)
  | [] => [[]]
  | c :: rest =>
    match splitOnChar sep rest with
    | [] => if c = sep then [[], []] else [[c]]
    | g :: gs => if c = sep then [] :: g :: gs else (c :: g) :: gs

/-- The lines of a string, split on newline characters. -/
def linesOf (s : String) : List String := (splitOnChar '\n' s.data).map String.mk

/-- Join strings with the given separator, inverse to splitting on it. -/
def joinWith (sep : String) : List String → String
  | [] => ""
  | [l] => l
  | l :: rest => l ++ sep ++ joinWith sep rest

/-- Strip one pair of surrounding double quotes, if present. -/
def stripQuotes (s : String) : String :=
  match s.data with
  | '"' :: rest =>
    match rest.reverse with
    | '"' :: mid => String.mk mid.reverse
    | _ => s
  | _ => s

/-- Parse a YAML flow sequence of strings, `[ "a", "b" ]`; an empty interior
yields the empty list. -/
def parseFlowList (s : String) : Except String (List String) :=
  match trimChars s.data with
  | '[' :: rest =>
    match rest.reverse with
    | ']' :: mid =>
      let inner := trimChars mid.reverse
      if inner = [] then .ok []
      else .ok ((splitOnChar ',' inner).map
        (fun item => stripQuotes (String.mk (trimChars item))))
    | _ => .error "yaml: unterminated flow sequence"
  | _ => .error "yaml: expected flow sequence"

/-- Apply one front-matter `key: value` line to the metadata under
construction: recognized keys populate their field, unrecognized keys are
ignored, malformed values are decoding errors. -/
def applyField (data : Metadata) (key value : String) : Except String Metadata :=
  if key = "title" then .ok { data with title := stripQuotes value }
  else if key = "confidential" then
    if value = "true" then .ok { data with confidential := true }
    else if value = "false" then .ok { data with confidential := false }
    else .error "yaml: cannot unmarshal value into bool"
  else if key = "assignees" then
    (parseFlowList value).map (fun xs => { data with assignees := xs })
  else if key = "labels" then
    (parseFlowList value).map (fun xs => { data with labels := xs })
  else if key = "duein" then .ok { data with dueIn := value }
  else if key = "crontab" then .ok { data with crontab := value }
  else .ok data

/-- Fold the front-matter lines over `applyField`; blank lines are skipped
and a line with no `:` separator is a decoding error. -/
def applyFields (data : Metadata) : List String → Except String Metadata
  | [] => .ok data
  | line :: rest =>
    if trimChars line.data = [] then applyFields data rest
    else
      match splitOnChar ':' line.data with
      | [] => .error "yaml: malformed line"
      | [_] => .error "yaml: missing colon separator"
      | key :: vs =>
        match applyField data (String.mk (trimChars key))
            (trimStr (joinWith ":" (vs.map String.mk))) with
        | .error e => .error e
        | .ok d => applyFields d rest

/-- Split the lines after the opening `---` into the front-matter block and
the body: everything before the next `---` line is front matter, everything
after it is body. -/
def splitFrontMatter : List String → Except String (List String × List String)
  | [] => .error "format error: unterminated front matter block"
  | line :: rest =>
    if line = "---" then .ok ([], rest)
    else
      match splitFrontMatter rest with
      | .error e => .error e
      | .ok (fm, body) => .ok (line :: fm, body)

/-- Modelled from the spec: the front-matter library
(`github.com/ericaro/frontmatter`, not under `src/`) splits the input into a
structured block delimited by `---` lines at the top of the file and a
trailing free-text body; the block is decoded as `key: value` configuration
into the tagged fields of `metadata` (unrecognized keys ignored, absent
fields left at their zero value), the body verbatim becomes the
`fm:"content"` field `Description`, and a malformed block is a decoding
error. -/
def frontmatterUnmarshal (contents : String) : Except String Metadata :=
  match linesOf contents with
  | "---" :: rest =>
    match splitFrontMatter rest with
    | .error e => .error e
    | .ok (fm, body) =>
      match applyFields {} fm with
      | .error e => .error e
      | .ok d => .ok { d with description := joinWith "\n" body }
  | _ => .error "format error: missing front matter delimiter"

/-- `parseMetadata` in `main.go`: allocate a fresh `metadata`, unmarshal the
file contents into it, and propagate any unmarshalling error.  The library
call is the explicit `unmarshal` parameter. -/
def parseMetadata (unmarshal : String → Except String Metadata)
    (contents : String) : Except String Metadata :=
  unmarshal contents

/-! ## Traversal and per-file processing (`processIssueFile`, `filepath.Walk`) -/

/-- The external collaborators of `processIssueFile` and `createIssue`, plus
the wall-clock instant `now` read by `time.Now()`:
`readFile` is `ioutil.ReadFile`, `unmarshal` the front-matter library,
`cronParse` is `cronexpr.Parse` (a successful parse yields the expression's
`Next` function), `parseDuration` is `time.ParseDuration`, and `submit`
covers the client construction, project lookup and issue-creation API calls
of `createIssue`. -/
structure WalkEnv where
  readFile : String → Except String String
  unmarshal : String → Except String Metadata
  cronParse : String → Except String (Time → Time)
  parseDuration : String → Except String Int
  submit : CreateIssueOptions → Except String Unit
  now : Time

/-- What `processIssueFile` did with one walk entry. -/
inductive FileOutcome where
  | skipped
  | notDue (next : Time)
  | created (opts : CreateIssueOptions)
deriving Repr, DecidableEq

/-- The tail of the walk closure of `processIssueFile` in `main.go`, after
`data.NextTime` has been set: exactly when `data.NextTime.Before(now)` holds
(a strict comparison), an issue is created from the metadata via
`createIssue` (any error propagating); otherwise the file is logged as due
at `data.NextTime`. -/
def createAndReport (env : WalkEnv) (data : Metadata) : Except String FileOutcome :=
  if data.nextTime < env.now then
    match createIssueOptions env.parseDuration data with
    | .error e => .error e
    | .ok opts =>
      match env.submit opts with
      | .error e => .error e
      | .ok _ => .ok (.created opts)
  else .ok (.notDue data.nextTime)

/-- The steps of the walk closure before the due-ness branch: extension
check, file read, front-matter parse, crontab parse, and the assignment
`data.NextTime = cronExpression.Next(lastTime)`. -/
def processOne (env : WalkEnv) (lastTime : Time) (p : String) :
    Except String FileOutcome :=
  if filepathExt p ≠ ".md" then .ok .skipped
  else
    match env.readFile p with
    | .error e => .error e
    | .ok contents =>
      match parseMetadata env.unmarshal contents with
      | .error e => .error e
      | .ok data =>
        match env.cronParse data.crontab with
        | .error e => .error e
        | .ok next => createAndReport env { data with nextTime := next lastTime }

/-- `filepath.Walk issuesRelativePath (processIssueFile lastTime)`: visit the
entries in traversal order, recording each entry's outcome; the first entry
whose processing returns an error stops the walk there, and the error is
returned (entries after it are not visited). -/
def runWalk (env : WalkEnv) (lastTime : Time) :
    List String → List (String × FileOutcome) × Option String
  | [] => ([], none)
  | p :: rest =>
    match processOne env lastTime p with
    | .error e => ([], some e)
    | .ok out =>
      let (outs, err) := runWalk env lastTime rest
      ((p, out) :: outs, err)

/-- The issues created during a walk, in creation order. -/
def createdIssues (outs : List (String × FileOutcome)) : List CreateIssueOptions :=
  outs.filterMap (fun q => match q.2 with
    | .created opts => some opts
    | _ => none)

/-! ## Concrete fixtures used to exercise the embedding -/

/-- A cron front end recognizing only the alias `@daily` (mapped to its
next-midnight successor function) and rejecting everything else, standing in
for `cronexpr.Parse` in concrete runs. -/
def testCronParse : String → Except String (Time → Time) :=
  fun s => if s = "@daily" then .ok nextDaily
           else .error ("syntax error in cron expression: " ++ s)

/-- A duration front end recognizing only `24h` (86400 seconds), standing in
for `time.ParseDuration` in concrete runs. -/
def testParseDuration : String → Except String Int :=
  fun s => if s = "24h" then .ok 86400
           else .error ("time: invalid duration " ++ s)

/-- A file system given by an association list from paths to contents. -/
def lookupFile (files : List (String × String)) : String → Except String String :=
  fun p =>
    match files.find? (fun q => q.1 = p) with
    | some q => .ok q.2
    | none => .error ("open " ++ p ++ ": no such file or directory")

/-- An issue-tracking API that accepts every submission. -/
def acceptAll : CreateIssueOptions → Except String Unit := fun _ => .ok ()

/-- A walk environment over the given files at the given wall-clock time,
with the modelled front-matter and cron collaborators plugged in. -/
def mkEnv (files : List (String × String)) (now : Time) : WalkEnv :=
  { readFile := lookupFile files
    unmarshal := frontmatterUnmarshal
    cronParse := testCronParse
    parseDuration := testParseDuration
    submit := acceptAll
    now := now }

/-- A daily template file body with no due-in offset. -/
def dailyContents : String := "---\ntitle: T\ncrontab: @daily\n---\nBody"

/-- The metadata `dailyContents` parses to. -/
def dailyMeta : Metadata :=
  { title := "T", description := "Body", crontab := "@daily" }

/-- A template whose crontab does not parse. -/
def badCronContents : String := "---\ntitle: B\ncrontab: not-a-cron\n---\nBody"

/-- The metadata `badCronContents` parses to. -/
def badCronMeta : Metadata :=
  { title := "B", description := "Body", crontab := "not-a-cron" }

/-- Environment for the equal-to-now boundary: one daily template, clock at
exactly the computed occurrence `nextDaily 0 = 86400`. -/
def envBoundary : WalkEnv := mkEnv [("task.md", dailyContents)] 86400

/-- Environment for fail-fast runs: a good template, then one with an
unparseable crontab, then another good one, clock well past the occurrence. -/
def envFailFast : WalkEnv :=
  mkEnv [("good.md", dailyContents), ("bad.md", badCronContents),
         ("later.md", dailyContents)] 100000

/-- Two successful pipelines: the first has only an unrelated job, the
second contains the target job `recurring` (finished at 5000) after a failed
job of another name. -/
def pipelinesFixture : List PipelineInfo :=
  [{ id := 7, jobs := [{ name := "build", status := "success", finishedAt := some 4000 }] },
   { id := 6, jobs := [{ name := "lint", status := "failed", finishedAt := some 4500 },
                       { name := "recurring", status := "failed", finishedAt := some 5000 }] }]

/-- A successful pipeline whose matching job has a nil `FinishedAt`. -/
def pipelinesNilFixture : List PipelineInfo :=
  [{ id := 9, jobs := [{ name := "recurring", status := "success", finishedAt := none }] }]

/-- A front-matter input exercising every recognized field. -/
def richContents : String :=
  "---\ntitle: Weekly report\nconfidential: true\nassignees: [ \"alice\", \"bob\" ]\nlabels: [ \"ops\" ]\nduein: 24h\ncrontab: @daily\n---\nWrite the report"

/-- The metadata `richContents` parses to. -/
def richMeta : Metadata :=
  { title := "Weekly report", description := "Write the report",
    confidential := true, assignees := ["alice", "bob"], labels := ["ops"],
    dueIn := "24h", crontab := "@daily" }

/-- Metadata of a due template with a `24h` due-in offset, its occurrence
already computed as 86400. -/
def dueMeta : Metadata :=
  { title := "T", description := "Body", dueIn := "24h", crontab := "@daily",
    nextTime := 86400 }

/-- The request built from `dueMeta`. -/
def dueOpts : CreateIssueOptions :=
  { title := some "T", description := some "Body", confidential := some false,
    createdAt := some 86400, dueDate := some 172800 }

/-- The request built from `dailyMeta` once due at occurrence 86400. -/
def goodOpts : CreateIssueOptions :=
  { title := some "T", description := some "Body", confidential := some false,
    createdAt := some 86400 }

/-- The request built from `richMeta`. -/
def richOpts : CreateIssueOptions :=
  { title := some "Weekly report", description := some "Write the report",
    confidential := some true, createdAt := some 0, dueDate := some 86400 }

/-! ## Claims -/

/-- C1: the claim says a missing (empty) `CI_PROJECT_ID` at startup is fatal
with a message naming it, before any last-run resolution; but the startup
checks of `main` guard the `CI_PROJECT_ID`, `CI_PROJECT_DIR` and
`CI_JOB_NAME` fatals with the condition `gitlabAPIToken == ""`, so with the
token present and `CI_PROJECT_ID` empty the process passes every check and
proceeds to last-run resolution and file processing. -/
theorem c1_missing_project_id_not_fatal :
    checkEnv { gitlabAPIToken := "token",
               ciAPIV4URL := "https://gitlab.example.com/api/v4",
               ciProjectID := "",
               ciProjectDir := "/builds/project",
               ciJobName := "recurring" } = none := by
  rfl

/-- C2 counterexample: one daily template, last run at time 0, wall clock
exactly at the computed occurrence `nextDaily 0 = 86400`.  The occurrence is
not after "now", yet the walk records the file as not due and creates no
issue, because the code's comparison `NextTime.Before(now)` is strict. -/
theorem c2_equal_to_now_is_skipped :
    runWalk envBoundary 0 ["task.md"] = ([("task.md", .notDue 86400)], none) ∧
    envBoundary.now = 86400 := by
  exact ⟨rfl, rfl⟩

/-- C2 (amended): for a markdown file whose read, front-matter parse and
crontab parse all succeed, issue creation is attempted exactly when the
computed occurrence is strictly before the current wall-clock time; an
occurrence equal to or after "now" is skipped with a logged notice of when
it is next due. -/
theorem c2_creation_iff_strictly_before_now (env : WalkEnv) (lastTime : Time)
    (p c : String) (d : Metadata) (nextf : Time → Time)
    (hext : filepathExt p = ".md")
    (hread : env.readFile p = .ok c)
    (hparse : env.unmarshal c = .ok d)
    (hcron : env.cronParse d.crontab = .ok nextf) :
    (nextf lastTime < env.now →
      (∃ opts, processOne env lastTime p = .ok (.created opts)) ∨
      (∃ e, processOne env lastTime p = .error e)) ∧
    (¬ nextf lastTime < env.now →
      processOne env lastTime p = .ok (.notDue (nextf lastTime))) := by
  have hp : processOne env lastTime p =
      createAndReport env { d with nextTime := nextf lastTime } := by
    unfold processOne parseMetadata
    rw [if_neg (not_not_intro hext)]
    simp only [hread, hparse, hcron]
  refine ⟨fun hlt => ?_, fun hge => ?_⟩
  · rw [hp]
    cases hopts : createIssueOptions env.parseDuration
        { d with nextTime := nextf lastTime } with
    | error e => exact Or.inr ⟨e, by simp [createAndReport, hlt, hopts]⟩
    | ok opts =>
      cases hsub : env.submit opts with
      | error e => exact Or.inr ⟨e, by simp [createAndReport, hlt, hopts, hsub]⟩
      | ok u => exact Or.inl ⟨opts, by simp [createAndReport, hlt, hopts, hsub]⟩
  · rw [hp]
    simp [createAndReport, hge]

/-- C2 witness: in the boundary environment the occurrence equals "now", so
the amended theorem yields the skipped outcome at a concrete input. -/
theorem c2_boundary_witness :
    processOne envBoundary 0 "task.md" = .ok (.notDue (nextDaily 0)) := by
  have h := c2_creation_iff_strictly_before_now envBoundary 0 "task.md"
    dailyContents dailyMeta nextDaily rfl rfl rfl rfl
  exact h.2 (by decide)

/-- C6: the occurrence the modelled cron library computes for `@daily` from
any reference time is strictly after that reference time and at most 24
hours (86400 seconds) later. -/
theorem c6_daily_next_occurrence_bounds (t : Time) :
    t < nextDaily t ∧ nextDaily t ≤ t + 86400 := by
  have h : ∀ s : Int, s < (s / 86400 + 1) * 86400 ∧ (s / 86400 + 1) * 86400 ≤ s + 86400 := by
    intro s
    omega
  exact h t

/-- C9: metadata parsing is deterministic; two successful parses of the same
bytes agree on every field. -/
theorem c9_parse_deterministic (u : String → Except String Metadata)
    (c : String) (m1 m2 : Metadata)
    (h1 : parseMetadata u c = .ok m1) (h2 : parseMetadata u c = .ok m2) :
    m1.title = m2.title ∧ m1.description = m2.description ∧
    m1.confidential = m2.confidential ∧ m1.assignees = m2.assignees ∧
    m1.labels = m2.labels ∧ m1.dueIn = m2.dueIn ∧ m1.crontab = m2.crontab := by
  have h := h1.symm.trans h2
  injection h with h
  subst h
  exact ⟨rfl, rfl, rfl, rfl, rfl, rfl, rfl⟩

/-- C3: under the precondition that every job matching the configured name
in the returned pipelines has a non-nil finish timestamp, `getLastRunTime`
returns the finish timestamp of the first matching job found while
iterating pipelines in the order the API returned them (ignoring the job's
own status), and returns `time.Unix(0, 0)` with no error when no returned
pipeline contains a matching job. -/
theorem c3_last_run_is_first_matching_job (name : String) (ps : List PipelineInfo)
    (h : ∀ p ∈ ps, ∀ j ∈ p.jobs, j.name = name → (j.finishedAt).isSome) :
    getLastRunTime name ps =
      (match firstMatchingJob name ps with
       | some j => GoResult.ok ((j.finishedAt).getD unixEpoch)
       | none => GoResult.ok unixEpoch) := by
  revert h
  induction ps with
  | nil =>
    intro h
    rfl
  | cons p rest ih =>
    intro h
    cases hf : p.jobs.find? (fun j => j.name = name) with
    | some j =>
      have hmem : j ∈ p.jobs := List.mem_of_find?_eq_some hf
      have hname : j.name = name := by simpa using List.find?_some hf
      obtain ⟨t, ht⟩ := Option.isSome_iff_exists.mp
        (h p (List.mem_cons_self p rest) j hmem hname)
      simp [getLastRunTime, firstMatchingJob, hf, ht]
    | none =>
      have ih2 := ih (fun q hq j hj hn => h q (List.mem_cons_of_mem p hq) j hj hn)
      simpa [getLastRunTime, firstMatchingJob, hf] using ih2

/-- C3 witness: on the pipeline fixture the resolver returns the finish
timestamp 5000 of the failed-but-matching job of the second pipeline. -/
theorem c3_last_run_witness :
    getLastRunTime "recurring" pipelinesFixture =
      (match firstMatchingJob "recurring" pipelinesFixture with
       | some j => GoResult.ok ((j.finishedAt).getD unixEpoch)
       | none => GoResult.ok unixEpoch) :=
  c3_last_run_is_first_matching_job "recurring" pipelinesFixture (by decide)

/-- C10: when every name-matching job in the returned pipelines has a
non-nil finish timestamp, the unconditional dereference `*job.FinishedAt`
inside `getLastRunTime` is safe and the function never panics; without that
precondition the function panics (it does not take the error branch), as on
the fixture whose matching job has a nil `FinishedAt`. -/
theorem c10_deref_safe_iff_finished (name : String) (ps : List PipelineInfo)
    (h : ∀ p ∈ ps, ∀ j ∈ p.jobs, j.name = name → (j.finishedAt).isSome) :
    (∀ m, getLastRunTime name ps ≠ GoResult.panic m) ∧
    getLastRunTime "recurring" pipelinesNilFixture = GoResult.panic nilDerefMsg := by
  refine ⟨?_, rfl⟩
  revert h
  induction ps with
  | nil =>
    intro h m hcon
    exact GoResult.noConfusion hcon
  | cons p rest ih =>
    intro h m
    cases hf : p.jobs.find? (fun j => j.name = name) with
    | some j =>
      have hmem : j ∈ p.jobs := List.mem_of_find?_eq_some hf
      have hname : j.name = name := by simpa using List.find?_some hf
      obtain ⟨t, ht⟩ := Option.isSome_iff_exists.mp
        (h p (List.mem_cons_self p rest) j hmem hname)
      simp [getLastRunTime, hf, ht]
    | none =>
      have ih2 := ih (fun q hq j hj hn => h q (List.mem_cons_of_mem p hq) j hj hn) m
      simpa [getLastRunTime, hf] using ih2

/-- C10 witness: on the all-finished pipeline fixture the resolver does not
panic. -/
theorem c10_deref_safe_witness :
    getLastRunTime "recurring" pipelinesFixture ≠ GoResult.panic nilDerefMsg :=
  (c10_deref_safe_iff_finished "recurring" pipelinesFixture (by decide)).1 nilDerefMsg

/-- C4: a successfully built issue-creation request carries the computed
occurrence `data.nextTime` as its creation timestamp; an empty `dueIn`
leaves the due date unset, and a non-empty `dueIn` parsing to duration `dur`
sets the due date to `data.nextTime + dur`. -/
theorem c4_created_at_and_due_date (pd : String → Except String Int)
    (data : Metadata) (opts : CreateIssueOptions)
    (h : createIssueOptions pd data = .ok opts) :
    opts.createdAt = some data.nextTime ∧
    (data.dueIn = "" → opts.dueDate = none) ∧
    (∀ dur, data.dueIn ≠ "" → pd data.dueIn = .ok dur →
      opts.dueDate = some (data.nextTime + dur)) := by
  simp only [createIssueOptions] at h
  by_cases hd : data.dueIn = ""
  · rw [if_neg (not_not_intro hd)] at h
    injection h with h
    subst h
    exact ⟨rfl, fun _ => rfl, fun dur hne hok => absurd hd hne⟩
  · rw [if_pos hd] at h
    cases hpd : pd data.dueIn with
    | error e =>
      rw [hpd] at h
      cases h
    | ok dur0 =>
      rw [hpd] at h
      injection h with h
      subst h
      refine ⟨rfl, fun hd0 => absurd hd0 hd, fun dur hne hok => ?_⟩
      injection hok with hok
      subst hok
      rfl

/-- C4 witness: for a template with `duein: 24h` and occurrence 86400 the
request is created at 86400 with due date 86400 + 86400. -/
theorem c4_created_at_witness :
    dueOpts.createdAt = some dueMeta.nextTime ∧
    dueOpts.dueDate = some (dueMeta.nextTime + 86400) := by
  have h := c4_created_at_and_due_date testParseDuration dueMeta dueOpts rfl
  exact ⟨h.1, h.2.2 86400 (by decide) rfl⟩

/-- C7: every successfully built issue-creation request sets exactly the
title, description, confidentiality flag and creation timestamp of the
metadata (plus optionally the due date); the request's assignee and label
fields are always left nil, whatever the metadata's assignees and labels
lists contain. -/
theorem c7_assignees_labels_never_attached (pd : String → Except String Int)
    (data : Metadata) (opts : CreateIssueOptions)
    (h : createIssueOptions pd data = .ok opts) :
    opts.assigneeIDs = none ∧ opts.labels = none ∧
    opts.title = some data.title ∧ opts.description = some data.description ∧
    opts.confidential = some data.confidential ∧
    opts.createdAt = some data.nextTime := by
  simp only [createIssueOptions] at h
  by_cases hd : data.dueIn = ""
  · rw [if_neg (not_not_intro hd)] at h
    injection h with h
    subst h
    exact ⟨rfl, rfl, rfl, rfl, rfl, rfl⟩
  · rw [if_pos hd] at h
    cases hpd : pd data.dueIn with
    | error e =>
      rw [hpd] at h
      cases h
    | ok dur0 =>
      rw [hpd] at h
      injection h with h
      subst h
      exact ⟨rfl, rfl, rfl, rfl, rfl, rfl⟩

/-- C7 witness: the rich template has non-empty assignees and labels, yet
its request leaves both nil. -/
theorem c7_not_attached_witness :
    richOpts.assigneeIDs = none ∧ richOpts.labels = none ∧
    richMeta.assignees = ["alice", "bob"] ∧ richMeta.labels = ["ops"] := by
  have h := c7_assignees_labels_never_attached testParseDuration richMeta richOpts rfl
  exact ⟨h.1, h.2.1, rfl, rfl⟩

/-- C5: when a markdown file's crontab expression fails to parse, the walk
over `pre ++ [f] ++ post` stops at `f` with that parse error: the recorded
outcomes (hence the created issues) are exactly those of walking `pre`
alone, so no issue is created for `f` and no later file is processed. -/
theorem c5_cron_error_aborts_walk (env : WalkEnv) (lastTime : Time)
    (pre post : List String) (f c : String) (d : Metadata) (e : String)
    (hext : filepathExt f = ".md")
    (hread : env.readFile f = .ok c)
    (hparse : env.unmarshal c = .ok d)
    (hcron : env.cronParse d.crontab = .error e)
    (hpre : ∀ p ∈ pre, ∃ o, processOne env lastTime p = .ok o) :
    runWalk env lastTime (pre ++ f :: post) =
      ((runWalk env lastTime pre).1, some e) := by
  have hf : processOne env lastTime f = .error e := by
    unfold processOne parseMetadata
    rw [if_neg (not_not_intro hext)]
    simp only [hread, hparse, hcron]
  revert hpre
  induction pre with
  | nil =>
    intro _
    simp [runWalk, hf]
  | cons q qs ih =>
    intro hpre
    obtain ⟨o, ho⟩ := hpre q (List.mem_cons_self q qs)
    have h2 := ih (fun r hr => hpre r (List.mem_cons_of_mem q hr))
    simp [runWalk, ho, h2]

/-- C5 witness: in the fail-fast fixture the run aborts at `bad.md` with the
cron parse error, keeping only the issue created for `good.md` and never
processing `later.md`. -/
theorem c5_fail_fast_witness :
    runWalk envFailFast 0 ["good.md", "bad.md", "later.md"] =
      ((runWalk envFailFast 0 ["good.md"]).1,
        some "syntax error in cron expression: not-a-cron") := by
  have h := c5_cron_error_aborts_walk envFailFast 0 ["good.md"] ["later.md"]
    "bad.md" badCronContents badCronMeta
    "syntax error in cron expression: not-a-cron"
    rfl rfl rfl rfl ?_
  · exact h
  · intro p hp
    have hpg : p = "good.md" := by simpa using hp
    subst hpg
    exact ⟨FileOutcome.created goodOpts, rfl⟩

/-- C8: a walk entry whose path lacks the `.md` extension is skipped with no
dependence on any external collaborator (so it is neither read nor parsed
and creates nothing), and conversely only non-`.md` entries produce the
skipped outcome. -/
theorem c8_only_md_processed (env env2 : WalkEnv) (lt lt2 : Time) (p : String) :
    (filepathExt p ≠ ".md" →
      processOne env lt p = .ok .skipped ∧
      processOne env lt p = processOne env2 lt2 p) ∧
    (processOne env lt p = .ok .skipped → filepathExt p ≠ ".md") := by
  constructor
  · intro h
    constructor
    · unfold processOne
      rw [if_pos h]
    · unfold processOne
      rw [if_pos h, if_pos h]
  · intro h
    by_cases hext : filepathExt p = ".md"
    · exfalso
      unfold processOne parseMetadata at h
      rw [if_neg (not_not_intro hext)] at h
      cases hr : env.readFile p with
      | error e => simp [hr] at h
      | ok contents =>
        cases hm : env.unmarshal contents with
        | error e => simp [hr, hm] at h
        | ok d =>
          cases hc : env.cronParse d.crontab with
          | error e => simp [hr, hm, hc] at h
          | ok next =>
            simp only [hr, hm, hc] at h
            unfold createAndReport at h
            by_cases hdue : ({ d with nextTime := next lt } : Metadata).nextTime < env.now
            · rw [if_pos hdue] at h
              cases ho : createIssueOptions env.parseDuration
                  { d with nextTime := next lt } with
              | error e => simp [ho] at h
              | ok opts =>
                cases hs : env.submit opts with
                | error e => simp [ho, hs] at h
                | ok u => simp [ho, hs] at h
            · rw [if_neg hdue] at h
              simp at h
    · exact hext

/-- C8 witness: a `.txt` entry is skipped identically in two unrelated
environments. -/
theorem c8_skip_witness :
    processOne envFailFast 0 "notes.txt" = .ok .skipped ∧
    processOne envFailFast 0 "notes.txt" = processOne envBoundary 5 "notes.txt" :=
  (c8_only_md_processed envFailFast envBoundary 0 5 "notes.txt").1 (by decide)

/-- C9 witness: the deterministic-parse theorem applied to a concrete
front-matter input populating every field, parsed by the modelled
front-matter library. -/
theorem c9_parse_deterministic_witness :
    richMeta.title = richMeta.title ∧ richMeta.description = richMeta.description ∧
    richMeta.confidential = richMeta.confidential ∧ richMeta.assignees = richMeta.assignees ∧
    richMeta.labels = richMeta.labels ∧ richMeta.dueIn = richMeta.dueIn ∧
    richMeta.crontab = richMeta.crontab :=
  c9_parse_deterministic frontmatterUnmarshal richContents richMeta richMeta rfl rfl

end GitlabRecurringIssues
